import Mathlib

/-!
Verification of the `workers` beanstalk worker-pool client (`client.go`).

The Go source is shallowly embedded as executable Lean definitions:

* errors of the `kr/beanstalk` library become the inductive `BeanstalkError`;
* `isTimeoutOrDeadline` is translated directly;
* the `Reserve` loop becomes a fuel-indexed interpreter (`runLoop`) over an
  explicit `EngineState`, with the sources of run-time nondeterminism
  (Go map iteration order of the tube map, outcomes of `tube.Reserve(0)`,
  `select` branch choice when several cases are ready, external `Stop()`
  calls from the caller or the signal bridge, and worker-goroutine
  completions) supplied by an `Oracle`;
* the buffered channel `MaxControl` of capacity `max` is modelled by the
  counter `tokens` (number of values currently buffered): a send is ready
  iff `tokens < max`, a receive decrements it;
* `Stop` carries Go channel-close semantics: closing the already-closed
  stop channel panics, both for external callers (`Stop`/`closeChan`) and
  for the engine's own call on the fatal branch (`engineStop`), so a run
  either returns an error or ends in a panic (`RunOutcome`);
* the goroutine body `work` and Go `defer`/panic semantics are modelled
  separately (`execWork`), as are the two `defer` statements of `Reserve`
  (run in LIFO order, also while a panic unwinds).

`EngineState` also carries ghost observables (`visits`,
`reservationsIssued`, `spawnedJobs`, `finishedWorkers`, `peakTokens`,
`extStopped`) that record what happened; they influence nothing.
-/

/-- Identity of the `Err` field of a `beanstalk.ConnError`: the two
distinguished sentinel errors `beanstalk.ErrTimeout` and
`beanstalk.ErrDeadline`, or any other underlying error. -/
inductive Cause where
  | timeout
  | deadline
  | other (n : Nat)
deriving DecidableEq, Repr

/-- Model of `beanstalk.ConnError`: the operation it occurred in and the
underlying cause. -/
structure ConnError where
  op : String
  err : Cause
deriving DecidableEq, Repr

/-- An error value returned by a beanstalk call: either a
`beanstalk.ConnError`, or any other error (e.g. a raw I/O error such as
`io.EOF`), identified by a tag. -/
inductive BeanstalkError where
  | conn (e : ConnError)
  | rawErr (n : Nat)
deriving DecidableEq, Repr

/-- Translation of `isTimeoutOrDeadline` (client.go:137-144): the error is a
`beanstalk.ConnError` whose `Op` is `"reserve-with-timeout"` and whose `Err`
is `beanstalk.ErrTimeout` or `beanstalk.ErrDeadline`. -/
def isTimeoutOrDeadline : BeanstalkError → Bool
  | BeanstalkError.conn e =>
      e.op == "reserve-with-timeout" && (e.err == Cause.timeout || e.err == Cause.deadline)
  | BeanstalkError.rawErr _ => false

/-- The client's handler: either some plain (non-router) handler, or a
`*WorkMux` router. `workMux ts` carries the result of `mux.Tubes()`.
Modelled from the spec: `WorkMux` itself is not under `src/`; per the spec
it is a table from queue name to handler whose name set (possibly empty) is
what `Tubes()` exposes. -/
inductive Handler where
  | handlerFunc
  | workMux (ts : List String)
deriving DecidableEq, Repr

/-- Translation of `(*Client).tubes` (client.go:103-116): start from
`["default"]`; if the handler is a `*WorkMux`, replace the list by
`mux.Tubes()` (with no fallback when that list is empty). One
`beanstalk.TubeSet` is then built per name in the returned list. -/
def tubesNames (h : Handler) : List String :=
  match h with
  | Handler.workMux ts => ts
  | Handler.handlerFunc => ["default"]

/-- Outcome of one `tube.Reserve(0)` call. -/
inductive ReserveResult where
  | success (id : Nat) (body : List Nat)
  | failure (e : BeanstalkError)
deriving DecidableEq, Repr

/-- The value `Reserve` returns: the distinguished `ErrClientHasQuit`
(client.go:16-17), or a raw beanstalk error propagated unchanged. The two
constructors are distinct, as the Go error values are. -/
inductive EngineError where
  | clientHasQuit
  | protocol (e : BeanstalkError)
deriving DecidableEq, Repr

/-- The branch taken by the three-way `select` of the scan loop
(client.go:70-85): send into `MaxControl`, receive from `stop`, or the
`default` branch. -/
inductive SelChoice where
  | acquireTok
  | stopObserved
  | skipTube
deriving DecidableEq, Repr

/-- Go `select` semantics: the `default` branch runs only when no other
case is ready; when both non-default cases are ready the runtime picks one
of them (here decided by the oracle bit `pref`, `true` = send). -/
def resolveSelect (canAcquire canStop pref : Bool) : SelChoice :=
  match canAcquire, canStop with
  | true, true => if pref then SelChoice.acquireTok else SelChoice.stopObserved
  | true, false => SelChoice.acquireTok
  | false, true => SelChoice.stopObserved
  | false, false => SelChoice.skipTube

/-- State of one `Reserve` run. `tokens` is the number of values buffered
in `MaxControl`; `active` the number of spawned, unfinished worker
goroutines; `stopFired` whether `close(c.stop)` has happened. The
remaining fields are ghost observables: `extStopped` records that `Stop`
was called externally (caller or signal bridge), `visits` the tube names
iterated over, `reservationsIssued` the `tube.Reserve(0)` calls made,
`spawnedJobs` the worker goroutines started, `finishedWorkers` how many
finished, and `peakTokens` the largest value `tokens` ever took. -/
structure EngineState where
  tokens : Nat
  active : Nat
  finishedWorkers : Nat
  spawnedJobs : List (Nat × String)
  stopFired : Bool
  extStopped : Bool
  visits : List String
  reservationsIssued : List (Nat × String)
  peakTokens : Nat
deriving DecidableEq, Repr

/-- State at the top of `Reserve`: fresh `stop` channel, empty
`MaxControl`, no workers. -/
def initState : EngineState :=
  { tokens := 0, active := 0, finishedWorkers := 0, spawnedJobs := [],
    stopFired := false, extStopped := false, visits := [],
    reservationsIssued := [], peakTokens := 0 }

/-- Environment of one run: all sources of nondeterminism. `scanOrder k`
is the Go map iteration order of the tube map during scan `k`;
`reserve k name` the outcome of `tube.Reserve(0)` on `name` in scan `k`;
`selPref k j` the select tie-break at position `j` of scan `k`;
`extStopAt k j` whether an external `Stop()` (caller or signal bridge)
lands just before that step; `completions k j` how many worker goroutines
finish just before it; `idleExtStop k` / `idleCompletions k` the same for
the idle phase ending scan `k`. -/
structure Oracle where
  scanOrder : Nat → List String
  reserve : Nat → String → ReserveResult
  selPref : Nat → Nat → Bool
  extStopAt : Nat → Nat → Bool
  completions : Nat → Nat → Nat
  idleExtStop : Nat → Bool
  idleCompletions : Nat → Nat

/-- The Go map iterated by the scan loop has exactly the tube names from
`(*Client).tubes` as keys, in an unspecified order: each scan's iteration
order is some permutation of `tubesNames h`. -/
def validOracle (h : Handler) (o : Oracle) : Prop :=
  ∀ k, (o.scanOrder k).Perm (tubesNames h)

/-- An external `Stop()` call: `close(c.stop)` makes `stopFired` true
(ghost-recorded in `extStopped`). -/
def applyExtStop (fires : Bool) (s : EngineState) : EngineState :=
  if fires then { s with stopFired := true, extStopped := true } else s

/-- `n` worker goroutines reach their final `<-c.MaxControl`: each removes
one buffered value and finishes (capped at the workers that exist). -/
def applyCompletions (n : Nat) (s : EngineState) : EngineState :=
  let c := min n s.active
  { s with tokens := s.tokens - c, active := s.active - c,
           finishedWorkers := s.finishedWorkers + c }

/-- Ghost record of the `for name, tube := range tubes` iteration reaching
tube `name`. -/
def recordVisit (name : String) (s : EngineState) : EngineState :=
  { s with visits := s.visits ++ [name] }

/-- The send `c.MaxControl <- 0` succeeding: one more value buffered (the
following `tube.Reserve(0)` call is ghost-recorded). -/
def acquireToken (k : Nat) (name : String) (s : EngineState) : EngineState :=
  { s with tokens := s.tokens + 1,
           peakTokens := Max.max s.peakTokens (s.tokens + 1),
           reservationsIssued := s.reservationsIssued ++ [(k, name)] }

/-- A Go run-time panic relevant here. -/
inductive GoPanic where
  | closeOfClosedChannel
deriving DecidableEq, Repr

/-- Result of one engine step: continue the scan, return from `Reserve`
with the given error, or panic (the panic unwinds out of `Reserve`). -/
inductive StepResult where
  | next (s : EngineState)
  | halt (r : EngineError) (s : EngineState)
  | crash (p : GoPanic) (s : EngineState)
deriving DecidableEq, Repr

/-- The engine's own `c.Stop()` call on the fatal branch (client.go:78):
`close(c.stop)` under the mutex. Go `close` panics with
close-of-closed-channel when the channel is already closed — which
happens when an external `Stop` (caller or signal bridge) fired earlier
but the select nevertheless picked the send case over the ready stop
case. -/
def engineStop (s : EngineState) : Except GoPanic EngineState :=
  if s.stopFired then Except.error GoPanic.closeOfClosedChannel
  else Except.ok { s with stopFired := true }

/-- Translation of the body of the `c.MaxControl <- 0` select case
(client.go:73-84), after the token was acquired: on `err == nil` spawn a
worker goroutine for the job; else if `!isTimeoutOrDeadline(err)` call
`c.Stop()` — which closes the stop channel, or panics if an external
`Stop` already closed it — and return `err`; else release the token
(`<-c.MaxControl`) and move on. -/
def reserveDispatch (name : String) (res : ReserveResult)
    (s : EngineState) : StepResult :=
  match res with
  | ReserveResult.success id _ =>
      StepResult.next { s with active := s.active + 1,
                               spawnedJobs := s.spawnedJobs ++ [(id, name)] }
  | ReserveResult.failure e =>
      if ! isTimeoutOrDeadline e then
        match engineStop s with
        | Except.error p => StepResult.crash p s
        | Except.ok s2 => StepResult.halt (EngineError.protocol e) s2
      else
        StepResult.next { s with tokens := s.tokens - 1 }

/-- The three-way `select` at one tube (client.go:70-85): send into
`MaxControl` (ready iff the buffer is not full) and reserve from this
tube; receive from `stop` (ready iff it was closed), returning
`ErrClientHasQuit`; or `default`, skipping to the next tube. -/
def tubeSelect (max : Nat) (o : Oracle) (k j : Nat) (name : String)
    (s : EngineState) : StepResult :=
  match resolveSelect (decide (s.tokens < max)) s.stopFired (o.selPref k j) with
  | SelChoice.acquireTok => reserveDispatch name (o.reserve k name) (acquireToken k name s)
  | SelChoice.stopObserved => StepResult.halt EngineError.clientHasQuit s
  | SelChoice.skipTube => StepResult.next s

/-- One iteration of `for name, tube := range tubes`: concurrent events
delivered by the oracle (external `Stop`, worker completions) land first,
then the `select` runs. -/
def tubeStep (max : Nat) (o : Oracle) (k j : Nat) (name : String)
    (s : EngineState) : StepResult :=
  tubeSelect max o k j name
    (recordVisit name (applyCompletions (o.completions k j) (applyExtStop (o.extStopAt k j) s)))

/-- The scan phase of cycle `k`: one `tubeStep` per name in the map's
iteration order, stopping early if a step returns from `Reserve`. -/
def scanTubes (max : Nat) (o : Oracle) (k : Nat) :
    Nat → List String → EngineState → StepResult
  | _, [], s => StepResult.next s
  | j, name :: rest, s =>
      match tubeStep max o k j name s with
      | StepResult.halt r s2 => StepResult.halt r s2
      | StepResult.crash p s2 => StepResult.crash p s2
      | StepResult.next s2 => scanTubes max o k (j + 1) rest s2

/-- The idle phase (client.go:88-92): `select` on `stop` versus
`time.After(wait)`. Concurrent events land first; if `stop` has been
closed by then its case is ready before the timer (the poll interval is
positive) and `Reserve` returns `ErrClientHasQuit`, otherwise the timer
fires and the next scan begins. A `Stop` arriving after the timer is
delivered by the oracle at a later step instead. -/
def idleStep (o : Oracle) (k : Nat) (s : EngineState) : StepResult :=
  let s1 := applyCompletions (o.idleCompletions k) (applyExtStop (o.idleExtStop k) s)
  if s1.stopFired then StepResult.halt EngineError.clientHasQuit s1
  else StepResult.next s1

/-- How one run of `Reserve` can end: the function returns the given
error, or a panic unwinds out of it (its deferred calls still run, then
the panic continues and crashes the program — `Reserve` returns no
value). -/
inductive RunOutcome where
  | returns (r : EngineError) (s : EngineState)
  | panics (p : GoPanic) (s : EngineState)
deriving DecidableEq, Repr

/-- The unbounded `for` loop of `Reserve` (client.go:68-93), indexed by
fuel: scan all tubes, then idle; `none` means the fuel ran out with the
loop still running. -/
def runLoop (max : Nat) (o : Oracle) :
    Nat → Nat → EngineState → Option RunOutcome
  | 0, _, _ => none
  | Nat.succ fuel, k, s =>
      match scanTubes max o k 0 (o.scanOrder k) s with
      | StepResult.halt r s2 => some (RunOutcome.returns r s2)
      | StepResult.crash p s2 => some (RunOutcome.panics p s2)
      | StepResult.next s2 =>
          match idleStep o k s2 with
          | StepResult.halt r s3 => some (RunOutcome.returns r s3)
          | StepResult.crash p s3 => some (RunOutcome.panics p s3)
          | StepResult.next s3 => runLoop max o fuel (k + 1) s3

/-- The `wg.Wait()` deferred in `Reserve`: every spawned worker goroutine
runs to completion, each releasing its token with `<-c.MaxControl`
(the signal-bridge goroutine also joins: `stopFired` is true on every
exit path, so it has exited its select). -/
def drain (s : EngineState) : EngineState :=
  { s with tokens := s.tokens - s.active,
           finishedWorkers := s.finishedWorkers + s.active,
           active := 0 }

/-- A full `Reserve` run (client.go:54-94): fresh state, then the loop.
Deferred calls run both on normal return and while a panic unwinds, so
the `wg.Wait()` drain applies to either outcome; after a panic the
unwinding continues past the defers and `Reserve` never returns. -/
def ReserveRun (max : Nat) (o : Oracle) (fuel : Nat) :
    Option RunOutcome :=
  match runLoop max o fuel 0 initState with
  | none => none
  | some (RunOutcome.returns r s) => some (RunOutcome.returns r (drain s))
  | some (RunOutcome.panics p s) => some (RunOutcome.panics p (drain s))

/-- The two cleanup actions deferred by `Reserve` (client.go:62-63). -/
inductive ExitEvent where
  | closeConn
  | waitJoin
deriving DecidableEq, Repr

/-- Registration order of the deferred calls: `defer bs.Close()`
(client.go:62) first, `defer wg.Wait()` (client.go:63) second. -/
def reserveDefers : List ExitEvent := [ExitEvent.closeConn, ExitEvent.waitJoin]

/-- Go runs deferred calls in last-in-first-out order when the surrounding
function returns. -/
def runDefers (registered : List ExitEvent) : List ExitEvent := registered.reverse

/-- The order in which the cleanup actions actually execute on any exit
path of `Reserve`. -/
def exitSequence : List ExitEvent := runDefers reserveDefers

/-- The observable actions of the goroutine body `work`
(client.go:118-122). -/
inductive WorkAction where
  | wgDone
  | runHandler
  | releaseToken
deriving DecidableEq, Repr

/-- One statement of a Go function body: an action, with a flag telling
whether it is a `defer` statement. -/
structure GoStmt where
  deferred : Bool
  action : WorkAction
deriving DecidableEq, Repr

/-- The body of `work` (client.go:118-122) in source order:
`defer wg.Done()`, then `c.Handler.Work(j)`, then `<-c.MaxControl`. -/
def workBody : List GoStmt :=
  [{ deferred := true, action := WorkAction.wgDone },
   { deferred := false, action := WorkAction.runHandler },
   { deferred := false, action := WorkAction.releaseToken }]

/-- Go execution of a function body: `defer` statements push their call
onto a stack run in LIFO order when the function returns or panics; a
panic raised inside the handler call aborts the rest of the body, with
only the already-deferred calls still running. The result is the list of
actions that actually execute, in order. -/
def runStmts (handlerPanics : Bool) : List GoStmt → List WorkAction → List WorkAction
  | [], defers => defers
  | st :: rest, defers =>
      if st.deferred then runStmts handlerPanics rest (st.action :: defers)
      else if st.action == WorkAction.runHandler && handlerPanics then
        WorkAction.runHandler :: defers
      else st.action :: runStmts handlerPanics rest defers

/-- The actions executed by one invocation of `work`, for a handler that
returns normally (`handlerPanics = false`) or panics. -/
def execWork (handlerPanics : Bool) : List WorkAction :=
  runStmts handlerPanics workBody []

/-- State of the one-shot `stop` channel: whether `close(c.stop)` has
already happened. -/
structure StopState where
  stopClosed : Bool
deriving DecidableEq, Repr

/-- Go `close` on a channel: closing an already-closed channel panics. -/
def closeChan (s : StopState) : Except GoPanic StopState :=
  if s.stopClosed then Except.error GoPanic.closeOfClosedChannel
  else Except.ok { stopClosed := true }

/-- Translation of `(*Client).Stop` (client.go:97-101): take the mutex,
`close(c.stop)`, release the mutex. The mutex serializes concurrent
calls but the close itself is unconditional. -/
def Stop (s : StopState) : Except GoPanic StopState :=
  closeChan s

/-- Outcome of the `net.Dial` call in `ConnectAndWork`
(client.go:32-40). -/
inductive DialResult where
  | ok
  | dialErr (e : BeanstalkError)
deriving DecidableEq, Repr

/-- Translation of `(*Client).ConnectAndWork` (client.go:32-40): if the
dial fails, return its error at once — `Reserve` is never entered, so no
stop channel is made, no goroutine (worker or signal bridge) is spawned,
the handler is never invoked and `Stop` is never called. Otherwise the
result is that of the `Reserve` run. -/
def ConnectAndWork (d : DialResult) (max : Nat) (o : Oracle) (fuel : Nat) :
    Except BeanstalkError (Option RunOutcome) :=
  match d with
  | DialResult.dialErr e => Except.error e
  | DialResult.ok => Except.ok (ReserveRun max o fuel)

/-- A timeout failure of `reserve-with-timeout`, the ordinary "tube has
nothing ready" outcome. -/
def timeoutErr : BeanstalkError :=
  BeanstalkError.conn { op := "reserve-with-timeout", err := Cause.timeout }

/-- A non-`ConnError` failure, as produced e.g. by a closed connection
(`io.EOF`). -/
def fatalErr : BeanstalkError := BeanstalkError.rawErr 0

/-- A run in which the caller fires `Stop` before the first scan step. -/
def stopOracle : Oracle :=
  { scanOrder := fun _ => ["default"],
    reserve := fun _ _ => ReserveResult.failure timeoutErr,
    selPref := fun _ _ => false,
    extStopAt := fun _ _ => true,
    completions := fun _ _ => 0,
    idleExtStop := fun _ => false,
    idleCompletions := fun _ => 0 }

/-- A run in which the first reservation fails with a non-transient
error. -/
def fatalOracle : Oracle :=
  { scanOrder := fun _ => ["default"],
    reserve := fun _ _ => ReserveResult.failure fatalErr,
    selPref := fun _ _ => true,
    extStopAt := fun _ _ => false,
    completions := fun _ _ => 0,
    idleExtStop := fun _ => false,
    idleCompletions := fun _ => 0 }

/-- A router exposing tubes `a` and `b`. -/
def muxAB : Handler := Handler.workMux ["a", "b"]

/-- A run over `muxAB` whose tube map iterates as `a` then `b`, all
reservations timing out, stopped at the first idle phase. -/
def orderOracleAB : Oracle :=
  { scanOrder := fun _ => ["a", "b"],
    reserve := fun _ _ => ReserveResult.failure timeoutErr,
    selPref := fun _ _ => true,
    extStopAt := fun _ _ => false,
    completions := fun _ _ => 0,
    idleExtStop := fun _ => true,
    idleCompletions := fun _ => 0 }

/-- The same run with the opposite — equally legal — map iteration
order. -/
def orderOracleBA : Oracle :=
  { scanOrder := fun _ => ["b", "a"],
    reserve := fun _ _ => ReserveResult.failure timeoutErr,
    selPref := fun _ _ => true,
    extStopAt := fun _ _ => false,
    completions := fun _ _ => 0,
    idleExtStop := fun _ => true,
    idleCompletions := fun _ => 0 }

/-- Invariant of every state the loop of `Reserve` passes through: the
buffered values of `MaxControl` are exactly the tokens held by running
workers; `tokens` never went above `max` (the channel capacity);
`close(c.stop)` has happened exactly if an external `Stop` call did; and
every spawned worker either finished or is active. -/
def StateInv (max : Nat) (s : EngineState) : Prop :=
  s.tokens = s.active
  ∧ s.tokens ≤ s.peakTokens
  ∧ s.peakTokens ≤ max
  ∧ s.stopFired = s.extStopped
  ∧ s.finishedWorkers + s.active = s.spawnedJobs.length

/-- What holds of the pre-drain state when `Reserve` returns
`ErrClientHasQuit`: each buffered token belongs to an active worker, the
stop channel was closed, and the close came from an external `Stop`. -/
def QuitInv (max : Nat) (s : EngineState) : Prop :=
  s.tokens = s.active
  ∧ s.peakTokens ≤ max
  ∧ s.stopFired = true
  ∧ s.extStopped = true
  ∧ s.finishedWorkers + s.active = s.spawnedJobs.length

/-- What holds of the pre-drain state when `Reserve` returns a raw error
`e`: the token acquired for the failed reservation is still buffered on
top of the active workers' tokens, `Stop` was called, and `e` was not a
transient reserve timeout. -/
def FatalInv (max : Nat) (e : BeanstalkError) (s : EngineState) : Prop :=
  s.tokens = s.active + 1
  ∧ s.peakTokens ≤ max
  ∧ s.stopFired = true
  ∧ isTimeoutOrDeadline e = false
  ∧ s.finishedWorkers + s.active = s.spawnedJobs.length

/-- The pre-drain exit invariant, by exit kind. -/
def HaltInv (max : Nat) : EngineError → EngineState → Prop
  | EngineError.clientHasQuit, s => QuitInv max s
  | EngineError.protocol e, s => FatalInv max e s

/-- Final state of the `stopOracle` run. -/
def stopFinal : EngineState :=
  { tokens := 0, active := 0, finishedWorkers := 0, spawnedJobs := [],
    stopFired := true, extStopped := true, visits := ["default"],
    reservationsIssued := [], peakTokens := 0 }

/-- Final state of the `fatalOracle` run: note the one leaked token. -/
def fatalFinal : EngineState :=
  { tokens := 1, active := 0, finishedWorkers := 0, spawnedJobs := [],
    stopFired := true, extStopped := false, visits := ["default"],
    reservationsIssued := [(0, "default")], peakTokens := 1 }

/-- Final state of the `orderOracleAB` run. -/
def abFinal : EngineState :=
  { tokens := 0, active := 0, finishedWorkers := 0, spawnedJobs := [],
    stopFired := true, extStopped := true, visits := ["a", "b"],
    reservationsIssued := [(0, "a"), (0, "b")], peakTokens := 1 }

/-- Final state of the `orderOracleBA` run. -/
def baFinal : EngineState :=
  { tokens := 0, active := 0, finishedWorkers := 0, spawnedJobs := [],
    stopFired := true, extStopped := true, visits := ["b", "a"],
    reservationsIssued := [(0, "b"), (0, "a")], peakTokens := 1 }

/-- State after the first scan of the `orderOracleAB` run. -/
def sABscan : EngineState :=
  { tokens := 0, active := 0, finishedWorkers := 0, spawnedJobs := [],
    stopFired := false, extStopped := false, visits := ["a", "b"],
    reservationsIssued := [(0, "a"), (0, "b")], peakTokens := 1 }

/-- A run in which the caller fires `Stop` just before the first scan
step, the select nevertheless picks the ready send case over the ready
stop case, and the reservation fails with a non-transient error — so the
engine's own `Stop` call hits the already-closed channel. -/
def raceOracle : Oracle :=
  { scanOrder := fun _ => ["default"],
    reserve := fun _ _ => ReserveResult.failure fatalErr,
    selPref := fun _ _ => true,
    extStopAt := fun _ _ => true,
    completions := fun _ _ => 0,
    idleExtStop := fun _ => false,
    idleCompletions := fun _ => 0 }

/-- State carried by the panic of the `raceOracle` run (after the
deferred drain): the failed reservation's token is still buffered and the
stop channel is closed. -/
def crashFinal : EngineState :=
  { tokens := 1, active := 0, finishedWorkers := 0, spawnedJobs := [],
    stopFired := true, extStopped := true, visits := ["default"],
    reservationsIssued := [(0, "default")], peakTokens := 1 }

theorem resolveSelect_eq_acquire {a b p : Bool}
    (h : resolveSelect a b p = SelChoice.acquireTok) : a = true := by
  cases a <;> cases b <;> cases p <;> simp_all [resolveSelect]

theorem resolveSelect_eq_stop {a b p : Bool}
    (h : resolveSelect a b p = SelChoice.stopObserved) : b = true := by
  cases a <;> cases b <;> cases p <;> simp_all [resolveSelect]

theorem applyExtStop_stateInv {max : Nat} {s : EngineState} (b : Bool)
    (hs : StateInv max s) : StateInv max (applyExtStop b s) := by
  obtain ⟨h1, h2, h3, h4, h5⟩ := hs
  cases b
  · exact ⟨h1, h2, h3, h4, h5⟩
  · exact ⟨h1, h2, h3, rfl, h5⟩

theorem applyCompletions_stateInv {max : Nat} {s : EngineState} (n : Nat)
    (hs : StateInv max s) : StateInv max (applyCompletions n s) := by
  obtain ⟨h1, h2, h3, h4, h5⟩ := hs
  refine ⟨?_, ?_, h3, h4, ?_⟩ <;> simp [applyCompletions] <;> omega

theorem recordVisit_stateInv {max : Nat} {s : EngineState} (name : String)
    (hs : StateInv max s) : StateInv max (recordVisit name s) := by
  simpa [recordVisit, StateInv] using hs

theorem engineStop_ok {s s2 : EngineState} (h : engineStop s = Except.ok s2) :
    s.stopFired = false ∧ s2 = { s with stopFired := true } := by
  unfold engineStop at h
  cases hsf : s.stopFired <;> simp [hsf] at h
  exact ⟨rfl, h.symm⟩

theorem tubeSelect_next_stateInv {max : Nat} {o : Oracle} {k j : Nat} {name : String}
    {s s2 : EngineState} (hs : StateInv max s)
    (h : tubeSelect max o k j name s = StepResult.next s2) : StateInv max s2 := by
  obtain ⟨h1, h2, h3, h4, h5⟩ := hs
  unfold tubeSelect at h
  rcases hsel : resolveSelect (decide (s.tokens < max)) s.stopFired (o.selPref k j)
      with _ | _ | _ <;> rw [hsel] at h
  · have hlt : s.tokens < max := by simpa using resolveSelect_eq_acquire hsel
    rcases hres : o.reserve k name with ⟨id, body⟩ | e <;> rw [hres] at h
    · simp only [reserveDispatch, StepResult.next.injEq] at h
      subst h
      refine ⟨?_, ?_, ?_, h4, ?_⟩ <;> simp [acquireToken] <;> omega
    · simp only [reserveDispatch] at h
      by_cases ht : isTimeoutOrDeadline e
      · simp only [ht, Bool.not_true, Bool.false_eq_true, if_false,
          StepResult.next.injEq] at h
        subst h
        refine ⟨?_, ?_, ?_, h4, ?_⟩ <;> simp [acquireToken] <;> omega
      · simp only [ht, Bool.not_false, if_true] at h
        rcases hes : engineStop (acquireToken k name s) with p | sE <;>
          rw [hes] at h <;> simp at h
  · simp at h
  · simp only [StepResult.next.injEq] at h
    subst h
    exact ⟨h1, h2, h3, h4, h5⟩

theorem tubeSelect_halt_inv {max : Nat} {o : Oracle} {k j : Nat} {name : String}
    {s s2 : EngineState} {r : EngineError} (hs : StateInv max s)
    (h : tubeSelect max o k j name s = StepResult.halt r s2) : HaltInv max r s2 := by
  obtain ⟨h1, h2, h3, h4, h5⟩ := hs
  unfold tubeSelect at h
  rcases hsel : resolveSelect (decide (s.tokens < max)) s.stopFired (o.selPref k j)
      with _ | _ | _ <;> rw [hsel] at h
  · have hlt : s.tokens < max := by simpa using resolveSelect_eq_acquire hsel
    rcases hres : o.reserve k name with ⟨id, body⟩ | e <;> rw [hres] at h
    · simp [reserveDispatch] at h
    · simp only [reserveDispatch] at h
      by_cases ht : isTimeoutOrDeadline e
      · simp [ht] at h
      · simp only [ht, Bool.not_false, if_true] at h
        rcases hes : engineStop (acquireToken k name s) with p | sE <;> rw [hes] at h
        · simp at h
        · obtain ⟨hsf0, hsE⟩ := engineStop_ok hes
          obtain ⟨hr, hsub⟩ := StepResult.halt.inj h
          subst hr
          subst hsub
          subst hsE
          refine ⟨?_, ?_, ?_, by simpa using ht, ?_⟩ <;> simp [acquireToken] <;> omega
  · have hstop : s.stopFired = true := resolveSelect_eq_stop hsel
    obtain ⟨hr, hsub⟩ := StepResult.halt.inj h
    subst hr
    subst hsub
    exact ⟨h1, h3, hstop, h4 ▸ hstop, h5⟩
  · simp at h

theorem tubeStep_next_stateInv {max : Nat} {o : Oracle} {k j : Nat} {name : String}
    {s s2 : EngineState} (hs : StateInv max s)
    (h : tubeStep max o k j name s = StepResult.next s2) : StateInv max s2 :=
  tubeSelect_next_stateInv
    (recordVisit_stateInv name
      (applyCompletions_stateInv _ (applyExtStop_stateInv _ hs))) h

theorem tubeStep_halt_inv {max : Nat} {o : Oracle} {k j : Nat} {name : String}
    {s s2 : EngineState} {r : EngineError} (hs : StateInv max s)
    (h : tubeStep max o k j name s = StepResult.halt r s2) : HaltInv max r s2 :=
  tubeSelect_halt_inv
    (recordVisit_stateInv name
      (applyCompletions_stateInv _ (applyExtStop_stateInv _ hs))) h

theorem scanTubes_nil (max : Nat) (o : Oracle) (k j : Nat) (s : EngineState) :
    scanTubes max o k j [] s = StepResult.next s := rfl

theorem scanTubes_cons_next {max : Nat} {o : Oracle} {k j : Nat} {name : String}
    {s s1 : EngineState} (rest : List String)
    (hstep : tubeStep max o k j name s = StepResult.next s1) :
    scanTubes max o k j (name :: rest) s = scanTubes max o k (j + 1) rest s1 := by
  rw [scanTubes, hstep]

theorem scanTubes_cons_halt {max : Nat} {o : Oracle} {k j : Nat} {name : String}
    {s s1 : EngineState} {r1 : EngineError} (rest : List String)
    (hstep : tubeStep max o k j name s = StepResult.halt r1 s1) :
    scanTubes max o k j (name :: rest) s = StepResult.halt r1 s1 := by
  rw [scanTubes, hstep]

theorem scanTubes_cons_crash {max : Nat} {o : Oracle} {k j : Nat} {name : String}
    {s s1 : EngineState} {p1 : GoPanic} (rest : List String)
    (hstep : tubeStep max o k j name s = StepResult.crash p1 s1) :
    scanTubes max o k j (name :: rest) s = StepResult.crash p1 s1 := by
  rw [scanTubes, hstep]

theorem runLoop_succ_scan_halt {max : Nat} {o : Oracle} {k : Nat} {s s2 : EngineState}
    {r : EngineError} (fuel : Nat)
    (hscan : scanTubes max o k 0 (o.scanOrder k) s = StepResult.halt r s2) :
    runLoop max o (fuel + 1) k s = some (RunOutcome.returns r s2) := by
  rw [runLoop, hscan]

theorem runLoop_succ_scan_crash {max : Nat} {o : Oracle} {k : Nat} {s s2 : EngineState}
    {p : GoPanic} (fuel : Nat)
    (hscan : scanTubes max o k 0 (o.scanOrder k) s = StepResult.crash p s2) :
    runLoop max o (fuel + 1) k s = some (RunOutcome.panics p s2) := by
  rw [runLoop, hscan]

theorem runLoop_succ_idle_halt {max : Nat} {o : Oracle} {k : Nat} {s s3 s4 : EngineState}
    {r : EngineError} (fuel : Nat)
    (hscan : scanTubes max o k 0 (o.scanOrder k) s = StepResult.next s3)
    (hidle : idleStep o k s3 = StepResult.halt r s4) :
    runLoop max o (fuel + 1) k s = some (RunOutcome.returns r s4) := by
  rw [runLoop, hscan]
  dsimp only
  rw [hidle]

theorem runLoop_succ_idle_crash {max : Nat} {o : Oracle} {k : Nat} {s s3 s4 : EngineState}
    {p : GoPanic} (fuel : Nat)
    (hscan : scanTubes max o k 0 (o.scanOrder k) s = StepResult.next s3)
    (hidle : idleStep o k s3 = StepResult.crash p s4) :
    runLoop max o (fuel + 1) k s = some (RunOutcome.panics p s4) := by
  rw [runLoop, hscan]
  dsimp only
  rw [hidle]

theorem runLoop_succ_next {max : Nat} {o : Oracle} {k : Nat} {s s3 s4 : EngineState}
    (fuel : Nat)
    (hscan : scanTubes max o k 0 (o.scanOrder k) s = StepResult.next s3)
    (hidle : idleStep o k s3 = StepResult.next s4) :
    runLoop max o (fuel + 1) k s = runLoop max o fuel (k + 1) s4 := by
  rw [runLoop, hscan]
  dsimp only
  rw [hidle]

theorem scanTubes_next_stateInv (max : Nat) (o : Oracle) (k : Nat) (names : List String) :
    ∀ (j : Nat) (s s2 : EngineState), StateInv max s →
      scanTubes max o k j names s = StepResult.next s2 → StateInv max s2 := by
  induction names with
  | nil =>
      intro j s s2 hs h
      rw [scanTubes_nil] at h
      cases h
      exact hs
  | cons name rest ih =>
      intro j s s2 hs h
      rcases hstep : tubeStep max o k j name s with s1 | ⟨r1, s1⟩ | ⟨p1, s1⟩
      · rw [scanTubes_cons_next rest hstep] at h
        exact ih (j + 1) s1 s2 (tubeStep_next_stateInv hs hstep) h
      · rw [scanTubes_cons_halt rest hstep] at h
        simp at h
      · rw [scanTubes_cons_crash rest hstep] at h
        simp at h

theorem scanTubes_halt_inv (max : Nat) (o : Oracle) (k : Nat) (names : List String) :
    ∀ (j : Nat) (s s2 : EngineState) (r : EngineError), StateInv max s →
      scanTubes max o k j names s = StepResult.halt r s2 → HaltInv max r s2 := by
  induction names with
  | nil =>
      intro j s s2 r hs h
      rw [scanTubes_nil] at h
      simp at h
  | cons name rest ih =>
      intro j s s2 r hs h
      rcases hstep : tubeStep max o k j name s with s1 | ⟨r1, s1⟩ | ⟨p1, s1⟩
      · rw [scanTubes_cons_next rest hstep] at h
        exact ih (j + 1) s1 s2 r (tubeStep_next_stateInv hs hstep) h
      · rw [scanTubes_cons_halt rest hstep] at h
        obtain ⟨hr, hsub⟩ := StepResult.halt.inj h
        subst hr
        subst hsub
        exact tubeStep_halt_inv hs hstep
      · rw [scanTubes_cons_crash rest hstep] at h
        simp at h

theorem idleStep_next_stateInv {o : Oracle} {k : Nat} {max : Nat} {s s2 : EngineState}
    (hs : StateInv max s) (h : idleStep o k s = StepResult.next s2) : StateInv max s2 := by
  have hs1 : StateInv max (applyCompletions (o.idleCompletions k) (applyExtStop (o.idleExtStop k) s)) :=
    applyCompletions_stateInv _ (applyExtStop_stateInv _ hs)
  unfold idleStep at h
  by_cases hsf : (applyCompletions (o.idleCompletions k) (applyExtStop (o.idleExtStop k) s)).stopFired <;>
    simp only [hsf, if_true, if_false, StepResult.next.injEq, reduceCtorEq] at h
  exact h ▸ hs1

theorem idleStep_halt_inv {o : Oracle} {k : Nat} {max : Nat} {s s2 : EngineState}
    {r : EngineError} (hs : StateInv max s)
    (h : idleStep o k s = StepResult.halt r s2) : HaltInv max r s2 := by
  have hs1 : StateInv max (applyCompletions (o.idleCompletions k) (applyExtStop (o.idleExtStop k) s)) :=
    applyCompletions_stateInv _ (applyExtStop_stateInv _ hs)
  unfold idleStep at h
  by_cases hsf : (applyCompletions (o.idleCompletions k) (applyExtStop (o.idleExtStop k) s)).stopFired <;>
    simp only [hsf, if_true, if_false, StepResult.halt.injEq, reduceCtorEq] at h
  obtain ⟨hr, hsub⟩ := h
  subst hr
  subst hsub
  obtain ⟨h1, h2, h3, h4, h5⟩ := hs1
  exact ⟨h1, h3, hsf, h4 ▸ hsf, h5⟩

theorem runLoop_halt_inv (max : Nat) (o : Oracle) (fuel : Nat) :
    ∀ (k : Nat) (s : EngineState) (r : EngineError) (s2 : EngineState), StateInv max s →
      runLoop max o fuel k s = some (RunOutcome.returns r s2) → HaltInv max r s2 := by
  induction fuel with
  | zero => intro k s r s2 hs h; simp [runLoop] at h
  | succ fuel ih =>
      intro k s r s2 hs h
      rcases hscan : scanTubes max o k 0 (o.scanOrder k) s with s3 | ⟨r3, s3⟩ | ⟨p3, s3⟩
      · rcases hidle : idleStep o k s3 with s4 | ⟨r4, s4⟩ | ⟨p4, s4⟩
        · rw [runLoop_succ_next fuel hscan hidle] at h
          exact ih (k + 1) s4 r s2
            (idleStep_next_stateInv (scanTubes_next_stateInv max o k _ 0 s s3 hs hscan) hidle) h
        · rw [runLoop_succ_idle_halt fuel hscan hidle] at h
          obtain ⟨hr, hsub⟩ := RunOutcome.returns.inj (Option.some.inj h)
          subst hr
          subst hsub
          exact idleStep_halt_inv (scanTubes_next_stateInv max o k _ 0 s s3 hs hscan) hidle
        · rw [runLoop_succ_idle_crash fuel hscan hidle] at h
          simp at h
      · rw [runLoop_succ_scan_halt fuel hscan] at h
        obtain ⟨hr, hsub⟩ := RunOutcome.returns.inj (Option.some.inj h)
        subst hr
        subst hsub
        exact scanTubes_halt_inv max o k _ 0 s s3 _ hs hscan
      · rw [runLoop_succ_scan_crash fuel hscan] at h
        simp at h

theorem initState_stateInv (max : Nat) : StateInv max initState :=
  ⟨rfl, Nat.le_refl 0, Nat.zero_le max, rfl, rfl⟩

theorem ReserveRun_halt_inv {max fuel : Nat} {o : Oracle} {r : EngineError}
    {s : EngineState} (hrun : ReserveRun max o fuel = some (RunOutcome.returns r s)) :
    ∃ s0, runLoop max o fuel 0 initState = some (RunOutcome.returns r s0) ∧ s = drain s0
      ∧ HaltInv max r s0 := by
  unfold ReserveRun at hrun
  rcases hrl : runLoop max o fuel 0 initState with _ | (⟨r0, s0⟩ | ⟨p0, s0⟩) <;>
    rw [hrl] at hrun
  · simp at hrun
  · simp only [Option.some.injEq, RunOutcome.returns.injEq] at hrun
    obtain ⟨hr, hsub⟩ := hrun
    subst hr
    subst hsub
    exact ⟨s0, rfl, rfl, runLoop_halt_inv max o fuel 0 initState _ s0 (initState_stateInv max) hrl⟩
  · simp at hrun

theorem tubeSelect_next_visits {max : Nat} {o : Oracle} {k j : Nat} {name : String}
    {s s2 : EngineState} (h : tubeSelect max o k j name s = StepResult.next s2) :
    s2.visits = s.visits := by
  unfold tubeSelect at h
  rcases hsel : resolveSelect (decide (s.tokens < max)) s.stopFired (o.selPref k j)
      with _ | _ | _ <;> rw [hsel] at h
  · rcases hres : o.reserve k name with ⟨id, body⟩ | e <;> rw [hres] at h
    · simp only [reserveDispatch, StepResult.next.injEq] at h
      subst h
      simp [acquireToken]
    · simp only [reserveDispatch] at h
      by_cases ht : isTimeoutOrDeadline e
      · simp only [ht, Bool.not_true, Bool.false_eq_true, if_false,
          StepResult.next.injEq] at h
        subst h
        simp [acquireToken]
      · simp only [ht, Bool.not_false, if_true] at h
        rcases hes : engineStop (acquireToken k name s) with p | sE <;>
          rw [hes] at h <;> simp at h
  · simp at h
  · simp only [StepResult.next.injEq] at h
    subst h
    rfl

theorem tubeStep_next_visits {max : Nat} {o : Oracle} {k j : Nat} {name : String}
    {s s2 : EngineState} (h : tubeStep max o k j name s = StepResult.next s2) :
    s2.visits = s.visits ++ [name] := by
  have hv := tubeSelect_next_visits h
  rw [hv]
  cases hb : o.extStopAt k j <;>
    simp [recordVisit, applyCompletions, applyExtStop, hb]

theorem scanTubes_next_visits (max : Nat) (o : Oracle) (k : Nat) (names : List String) :
    ∀ (j : Nat) (s s2 : EngineState),
      scanTubes max o k j names s = StepResult.next s2 →
      s2.visits = s.visits ++ names := by
  induction names with
  | nil =>
      intro j s s2 h
      rw [scanTubes_nil] at h
      cases h
      simp
  | cons name rest ih =>
      intro j s s2 h
      rcases hstep : tubeStep max o k j name s with s1 | ⟨r1, s1⟩ | ⟨p1, s1⟩
      · rw [scanTubes_cons_next rest hstep] at h
        rw [ih (j + 1) s1 s2 h, tubeStep_next_visits hstep]
        simp
      · rw [scanTubes_cons_halt rest hstep] at h
        simp at h
      · rw [scanTubes_cons_crash rest hstep] at h
        simp at h

theorem tubeSelect_next_res {max : Nat} {o : Oracle} {k j : Nat} {name : String}
    {s s2 : EngineState} (h : tubeSelect max o k j name s = StepResult.next s2) :
    s2.reservationsIssued = s.reservationsIssued
    ∨ s2.reservationsIssued = s.reservationsIssued ++ [(k, name)] := by
  unfold tubeSelect at h
  rcases hsel : resolveSelect (decide (s.tokens < max)) s.stopFired (o.selPref k j)
      with _ | _ | _ <;> rw [hsel] at h
  · rcases hres : o.reserve k name with ⟨id, body⟩ | e <;> rw [hres] at h
    · simp only [reserveDispatch, StepResult.next.injEq] at h
      subst h
      right
      simp [acquireToken]
    · simp only [reserveDispatch] at h
      by_cases ht : isTimeoutOrDeadline e
      · simp only [ht, Bool.not_true, Bool.false_eq_true, if_false,
          StepResult.next.injEq] at h
        subst h
        right
        simp [acquireToken]
      · simp only [ht, Bool.not_false, if_true] at h
        rcases hes : engineStop (acquireToken k name s) with p | sE <;>
          rw [hes] at h <;> simp at h
  · simp at h
  · simp only [StepResult.next.injEq] at h
    subst h
    left
    rfl

theorem tubeStep_next_res {max : Nat} {o : Oracle} {k j : Nat} {name : String}
    {s s2 : EngineState} (h : tubeStep max o k j name s = StepResult.next s2) :
    s2.reservationsIssued = s.reservationsIssued
    ∨ s2.reservationsIssued = s.reservationsIssued ++ [(k, name)] := by
  have hr := tubeSelect_next_res h
  cases hb : o.extStopAt k j <;>
    simp only [recordVisit, applyCompletions, applyExtStop, hb, if_true, if_false] at hr <;>
    exact hr

theorem scanTubes_next_res (max : Nat) (o : Oracle) (k : Nat) (names : List String) :
    ∀ (j : Nat) (s s2 : EngineState),
      scanTubes max o k j names s = StepResult.next s2 →
      ∃ extra, s2.reservationsIssued = s.reservationsIssued ++ extra
        ∧ extra.Sublist (names.map (fun n => (k, n))) := by
  induction names with
  | nil =>
      intro j s s2 h
      rw [scanTubes_nil] at h
      cases h
      exact ⟨[], by simp, List.nil_sublist _⟩
  | cons name rest ih =>
      intro j s s2 h
      rcases hstep : tubeStep max o k j name s with s1 | ⟨r1, s1⟩ | ⟨p1, s1⟩
      · rw [scanTubes_cons_next rest hstep] at h
        obtain ⟨extra, he, hsub⟩ := ih (j + 1) s1 s2 h
        rcases tubeStep_next_res hstep with h0 | h0
        · exact ⟨extra, by rw [he, h0], List.Sublist.cons _ hsub⟩
        · refine ⟨(k, name) :: extra, ?_, List.Sublist.cons₂ _ hsub⟩
          rw [he, h0]
          simp
      · rw [scanTubes_cons_halt rest hstep] at h
        simp at h
      · rw [scanTubes_cons_crash rest hstep] at h
        simp at h

/-- C1 (amended): while the stop channel is not yet closed, a reservation
failure leaves the run alive iff the error is a `beanstalk.ConnError` of
the `"reserve-with-timeout"` operation whose cause is timeout or deadline
(the token is released and the scan continues), and any other failure
makes the engine close the stop channel and return that same error; but
when an external `Stop` has already closed the channel — reachable, since
the select may pick the ready send case over the ready stop case — a
non-transient failure makes the engine's own `Stop` call panic with
close-of-closed-channel instead of returning the error. -/
theorem c1_transient_vs_fatal (name : String) (e : BeanstalkError)
    (s : EngineState) :
    (isTimeoutOrDeadline e = true ↔
      ∃ ce, e = BeanstalkError.conn ce ∧ ce.op = "reserve-with-timeout"
        ∧ (ce.err = Cause.timeout ∨ ce.err = Cause.deadline))
    ∧ (isTimeoutOrDeadline e = true →
        reserveDispatch name (ReserveResult.failure e) s
          = StepResult.next { s with tokens := s.tokens - 1 })
    ∧ (isTimeoutOrDeadline e = false → s.stopFired = false →
        reserveDispatch name (ReserveResult.failure e) s
          = StepResult.halt (EngineError.protocol e) { s with stopFired := true })
    ∧ (isTimeoutOrDeadline e = false → s.stopFired = true →
        reserveDispatch name (ReserveResult.failure e) s
          = StepResult.crash GoPanic.closeOfClosedChannel s) := by
  refine ⟨?_, ?_, ?_, ?_⟩
  · cases e with
    | conn ce =>
        simp only [isTimeoutOrDeadline, Bool.and_eq_true, Bool.or_eq_true, beq_iff_eq,
          BeanstalkError.conn.injEq]
        constructor
        · rintro ⟨hop, herr⟩
          exact ⟨ce, rfl, hop, herr⟩
        · rintro ⟨ce2, hce, hop, herr⟩
          subst hce
          exact ⟨hop, herr⟩
    | rawErr n => simp [isTimeoutOrDeadline]
  · intro ht
    simp [reserveDispatch, ht]
  · intro ht hsf
    simp [reserveDispatch, ht, engineStop, hsf]
  · intro ht hsf
    simp [reserveDispatch, ht, engineStop, hsf]

/-- Witness for C1 (amended): with the stop channel still open, a
non-`ConnError` failure makes the step return the same error with `Stop`
fired. -/
theorem c1_transient_vs_fatal_witness :
    reserveDispatch "default" (ReserveResult.failure (BeanstalkError.rawErr 7)) initState
      = StepResult.halt (EngineError.protocol (BeanstalkError.rawErr 7))
          { initState with stopFired := true } :=
  (c1_transient_vs_fatal "default" (BeanstalkError.rawErr 7) initState).2.2.1
    (by decide) rfl

/-- C1 counterexample: a concrete run with a non-transient reservation
failure after which `Reserve` does not terminate by returning that error:
the caller's `Stop` already closed the channel, the select still picked
the send case, and the engine's own `Stop` call panics with
close-of-closed-channel, so the run ends in a panic and returns
nothing. -/
theorem c1_stop_race_panics :
    isTimeoutOrDeadline fatalErr = false
    ∧ ReserveRun 2 raceOracle 5
        = some (RunOutcome.panics GoPanic.closeOfClosedChannel crashFinal)
    ∧ (∀ r s, ReserveRun 2 raceOracle 5 ≠ some (RunOutcome.returns r s)) := by
  refine ⟨by decide, by decide, ?_⟩
  intro r s h
  have he : ReserveRun 2 raceOracle 5
      = some (RunOutcome.panics GoPanic.closeOfClosedChannel crashFinal) := by decide
  rw [he] at h
  simp at h

/-- C2 counterexample: when the handler panics, the deferred `wg.Done()`
still runs but the token release `<-c.MaxControl` never executes, so the
release is not in a guaranteed-cleanup path. -/
theorem c2_release_skipped_on_panic :
    (execWork true).count WorkAction.releaseToken = 0
    ∧ (execWork true).contains WorkAction.wgDone = true := by decide

/-- C2 amended: the token is released exactly once per worker, in the
worker task, but only after the handler's normal return; only `wg.Done()`
is deferred, so a panicking handler skips the release. -/
theorem c2_release_only_on_normal_return :
    execWork false = [WorkAction.runHandler, WorkAction.releaseToken, WorkAction.wgDone]
    ∧ (execWork false).count WorkAction.releaseToken = 1
    ∧ execWork true = [WorkAction.runHandler, WorkAction.wgDone]
    ∧ (execWork true).count WorkAction.releaseToken = 0 := by decide

/-- C3 amended: the number of buffered admission tokens never exceeds
`max` at any moment of the run (witnessed by the running peak), and after
the final drain zero tokens remain on a stop-initiated exit — but exactly
one token (the one acquired for the failed reservation) remains on a
fatal-error exit. -/
theorem c3_token_bounds (max fuel : Nat) (o : Oracle) (r : EngineError)
    (s : EngineState) (hrun : ReserveRun max o fuel = some (RunOutcome.returns r s)) :
    s.peakTokens ≤ max
    ∧ (r = EngineError.clientHasQuit → s.tokens = 0)
    ∧ (∀ e, r = EngineError.protocol e → s.tokens = 1) := by
  obtain ⟨s0, hrl, hdrain, hinv⟩ := ReserveRun_halt_inv hrun
  subst hdrain
  cases r with
  | clientHasQuit =>
      simp only [HaltInv, QuitInv] at hinv
      obtain ⟨h1, h2, h3, h4, h5⟩ := hinv
      refine ⟨h2, fun _ => ?_, fun e he => ?_⟩
      · simp [drain]
        omega
      · simp at he
  | protocol e0 =>
      simp only [HaltInv, FatalInv] at hinv
      obtain ⟨h1, h2, h3, h4, h5⟩ := hinv
      refine ⟨h2, fun hq => ?_, fun e he => ?_⟩
      · simp at hq
      · simp [drain]
        omega

/-- Witness for C3 (amended) on the concrete stop-initiated run. -/
theorem c3_token_bounds_witness :
    stopFinal.peakTokens ≤ 2 ∧ stopFinal.tokens = 0 :=
  ⟨(c3_token_bounds 2 5 stopOracle EngineError.clientHasQuit stopFinal (by decide)).1,
   (c3_token_bounds 2 5 stopOracle EngineError.clientHasQuit stopFinal (by decide)).2.1 rfl⟩

/-- C3 counterexample: the fatal-error exit path leaves one token
outstanding after the run fully drains, not zero. -/
theorem c3_fatal_leak :
    ReserveRun 2 fatalOracle 5
      = some (RunOutcome.returns (EngineError.protocol fatalErr) fatalFinal)
    ∧ fatalFinal.active = 0
    ∧ fatalFinal.tokens = 1
    ∧ ¬ fatalFinal.tokens = 0 := by decide

/-- C4 amended: on every exit path `Reserve` first joins all spawned
tasks (the deferred `wg.Wait()`, registered last, runs first) and only
then closes the connection; after the join every spawned worker has
completed. -/
theorem c4_join_then_close (max fuel : Nat) (o : Oracle) (r : EngineError)
    (s : EngineState) (hrun : ReserveRun max o fuel = some (RunOutcome.returns r s)) :
    exitSequence = [ExitEvent.waitJoin, ExitEvent.closeConn]
    ∧ s.active = 0
    ∧ s.finishedWorkers = s.spawnedJobs.length := by
  obtain ⟨s0, hrl, hdrain, hinv⟩ := ReserveRun_halt_inv hrun
  subst hdrain
  refine ⟨rfl, rfl, ?_⟩
  cases r with
  | clientHasQuit =>
      simp only [HaltInv, QuitInv] at hinv
      obtain ⟨h1, h2, h3, h4, h5⟩ := hinv
      simp [drain]
      omega
  | protocol e0 =>
      simp only [HaltInv, FatalInv] at hinv
      obtain ⟨h1, h2, h3, h4, h5⟩ := hinv
      simp [drain]
      omega

/-- Witness for C4 (amended) on the concrete fatal-error run. -/
theorem c4_join_then_close_witness :
    exitSequence = [ExitEvent.waitJoin, ExitEvent.closeConn] ∧ fatalFinal.active = 0 :=
  ⟨(c4_join_then_close 2 5 fatalOracle (EngineError.protocol fatalErr) fatalFinal
      (by decide)).1,
   (c4_join_then_close 2 5 fatalOracle (EngineError.protocol fatalErr) fatalFinal
      (by decide)).2.1⟩

/-- C4 counterexample: the deferred calls run in the opposite order to the
claim — `bs.Close()` was deferred first, so it runs last: the engine does
not close the connection before the wait-group join. -/
theorem c4_close_is_last :
    reserveDefers = [ExitEvent.closeConn, ExitEvent.waitJoin]
    ∧ exitSequence = [ExitEvent.waitJoin, ExitEvent.closeConn]
    ∧ exitSequence ≠ [ExitEvent.closeConn, ExitEvent.waitJoin] := by decide

/-- C5: `Reserve` returns `ErrClientHasQuit` only when the stop signal was
observed, which (in a completed run) requires an external caller- or
signal-initiated `Stop`; it returns the raw error of the failed
reservation, never a transient one, when the exit was fatal; and the two
outcomes are distinct values. -/
theorem c5_quit_vs_raw (max fuel : Nat) (o : Oracle) (r : EngineError)
    (s : EngineState) (hrun : ReserveRun max o fuel = some (RunOutcome.returns r s)) :
    (r = EngineError.clientHasQuit → s.stopFired = true ∧ s.extStopped = true)
    ∧ (∀ e, r = EngineError.protocol e →
        isTimeoutOrDeadline e = false ∧ s.stopFired = true)
    ∧ (∀ e, EngineError.clientHasQuit ≠ EngineError.protocol e) := by
  obtain ⟨s0, hrl, hdrain, hinv⟩ := ReserveRun_halt_inv hrun
  subst hdrain
  refine ⟨?_, ?_, fun e he => by simp at he⟩
  · intro hq
    subst hq
    simp only [HaltInv, QuitInv] at hinv
    obtain ⟨h1, h2, h3, h4, h5⟩ := hinv
    exact ⟨h3, h4⟩
  · intro e he
    subst he
    simp only [HaltInv, FatalInv] at hinv
    obtain ⟨h1, h2, h3, h4, h5⟩ := hinv
    exact ⟨h4, h3⟩

/-- Witness for C5 on the concrete stop-initiated run. -/
theorem c5_quit_vs_raw_witness :
    stopFinal.stopFired = true ∧ stopFinal.extStopped = true :=
  (c5_quit_vs_raw 2 5 stopOracle EngineError.clientHasQuit stopFinal (by decide)).1 rfl

/-- C6 counterexample: the first `Stop` closes the stop channel; a second
`Stop` reaches `close` on an already-closed channel and panics — the
mutex serializes the calls but does not make them idempotent. -/
theorem c6_double_stop_panics :
    Stop { stopClosed := false } = Except.ok { stopClosed := true }
    ∧ Stop { stopClosed := true } = Except.error GoPanic.closeOfClosedChannel :=
  ⟨rfl, rfl⟩

/-- C6 amended: `Stop` fires the one-shot stop channel on first call; any
subsequent call panics with close-of-closed-channel rather than being a
no-op. -/
theorem c6_stop_once (s : StopState) :
    (s.stopClosed = false → Stop s = Except.ok { stopClosed := true })
    ∧ (s.stopClosed = true → Stop s = Except.error GoPanic.closeOfClosedChannel) := by
  constructor <;> intro h <;> simp [Stop, closeChan, h]

/-- Witness for C6 (amended) at a concrete already-fired stop channel. -/
theorem c6_stop_once_witness :
    Stop { stopClosed := true } = Except.error GoPanic.closeOfClosedChannel :=
  (c6_stop_once { stopClosed := true }).2 rfl

/-- C7 counterexample: a router exposing no tube names yields an empty
tube list — the engine does not fall back to `{"default"}` in that
case. -/
theorem c7_empty_mux_no_fallback :
    tubesNames (Handler.workMux []) = []
    ∧ tubesNames (Handler.workMux []) ≠ ["default"] := by decide

/-- C7 amended: the engine builds one queue reader per tube name exposed
by the router whenever the handler is a router — including zero readers
for an empty tube set — and falls back to `{"default"}` only when the
handler is not a router. -/
theorem c7_reader_per_tube :
    (∀ ts, tubesNames (Handler.workMux ts) = ts)
    ∧ tubesNames Handler.handlerFunc = ["default"] :=
  ⟨fun _ => rfl, rfl⟩

/-- C8 amended: a completed scan visits exactly the tube map's iteration
order, which is some permutation of the router's tube names — but that
order is chosen by the Go runtime per execution, not fixed. -/
theorem c8_scan_is_map_order (h : Handler) (o : Oracle) (hv : validOracle h o)
    (max k j : Nat) (s s2 : EngineState)
    (hscan : scanTubes max o k j (o.scanOrder k) s = StepResult.next s2) :
    s2.visits = s.visits ++ o.scanOrder k ∧ (o.scanOrder k).Perm (tubesNames h) :=
  ⟨scanTubes_next_visits max o k (o.scanOrder k) j s s2 hscan, hv k⟩

/-- Witness for C8 (amended) on the concrete two-tube scan. -/
theorem c8_scan_is_map_order_witness :
    sABscan.visits = initState.visits ++ orderOracleAB.scanOrder 0
    ∧ (orderOracleAB.scanOrder 0).Perm (tubesNames muxAB) :=
  c8_scan_is_map_order muxAB orderOracleAB (fun _ => List.Perm.refl _) 2 0 0
    initState sABscan (by decide)

/-- C8 counterexample: two executions of the engine over the same router,
both with legal Go map iteration orders, poll the tubes in different
orders — the order is not fixed across executions. -/
theorem c8_order_not_deterministic :
    validOracle muxAB orderOracleAB
    ∧ validOracle muxAB orderOracleBA
    ∧ ReserveRun 2 orderOracleAB 3
        = some (RunOutcome.returns EngineError.clientHasQuit abFinal)
    ∧ ReserveRun 2 orderOracleBA 3
        = some (RunOutcome.returns EngineError.clientHasQuit baFinal)
    ∧ abFinal.visits ≠ baFinal.visits :=
  ⟨fun _ => List.Perm.refl _, fun _ => List.Perm.swap "a" "b" [],
   by decide, by decide, by decide⟩

/-- C9: one completed scan issues at most one reservation per tube (the
reservations form a subsequence of the scan's distinct tube list, so the
reserved tube names are duplicate-free), and token acquisition is
non-blocking: with the buffer full and no stop pending, the select takes
the default branch and skips to the next tube with the state
untouched. -/
theorem c9_fair_scan (max k j : Nat) (o : Oracle) (names : List String)
    (s s2 : EngineState) (hnd : names.Nodup)
    (hscan : scanTubes max o k j names s = StepResult.next s2) :
    (∃ extra, s2.reservationsIssued = s.reservationsIssued ++ extra
      ∧ extra.Sublist (names.map (fun n => (k, n)))
      ∧ (extra.map Prod.snd).Nodup)
    ∧ ∀ (j2 : Nat) (name2 : String) (s3 : EngineState),
        max ≤ s3.tokens → s3.stopFired = false →
        tubeSelect max o k j2 name2 s3 = StepResult.next s3 := by
  constructor
  · obtain ⟨extra, he, hsub⟩ := scanTubes_next_res max o k names j s s2 hscan
    have hmapsub : (extra.map Prod.snd).Sublist names := by
      simpa [List.map_map] using hsub.map Prod.snd
    exact ⟨extra, he, hsub, hmapsub.nodup hnd⟩
  · intro j2 name2 s3 htok hsf
    have hd : decide (s3.tokens < max) = false := by
      simp only [decide_eq_false_iff_not]
      omega
    simp [tubeSelect, hd, hsf, resolveSelect]

/-- Witness for C9 on the concrete two-tube scan. -/
theorem c9_fair_scan_witness :
    (∃ extra, sABscan.reservationsIssued = initState.reservationsIssued ++ extra
      ∧ extra.Sublist ((["a", "b"]).map (fun n => (0, n)))
      ∧ (extra.map Prod.snd).Nodup)
    ∧ ∀ (j2 : Nat) (name2 : String) (s3 : EngineState),
        2 ≤ s3.tokens → s3.stopFired = false →
        tubeSelect 2 orderOracleAB 0 j2 name2 s3 = StepResult.next s3 :=
  c9_fair_scan 2 0 0 orderOracleAB ["a", "b"] initState sABscan (by decide) (by decide)

/-- C10: when the initial dial fails, `ConnectAndWork` returns that dial
error itself and never an engine outcome: `Reserve` is not entered, so no
handler runs, no task is spawned and the stop signal is never fired. -/
theorem c10_dial_failure (e : BeanstalkError) (max fuel : Nat) (o : Oracle) :
    ConnectAndWork (DialResult.dialErr e) max o fuel = Except.error e
    ∧ ∀ res, ConnectAndWork (DialResult.dialErr e) max o fuel ≠ Except.ok res :=
  ⟨rfl, fun res h => by simp [ConnectAndWork] at h⟩
